import Mathlib

/-!
Verification of the VCS repository (git_commit_ai.py, git_diff_summarizer.py).

Strings are modelled as `List Char`.  Python's `str.strip()` /
`str.strip(chars)` remove characters of a given class from both ends; we
model the character classes relevant here (ASCII whitespace, the quote
characters `"` and `'`) and the stripping operation by recursion on lists.
The interactive pieces (subprocess exit status, environment variable,
service reply, operator input lines) are modelled as explicit oracle
inputs; `input()` hitting end of stream raises `EOFError` in Python, which
the model records as a distinguished crash outcome.
-/

/-- ASCII whitespace characters, the ones `str.strip()` removes for the
ASCII inputs this development works with. -/
def pyIsSpace (c : Char) : Bool :=
  c = ' ' || c = '\t' || c = '\n' || c = '\r' || c = '\x0b' || c = '\x0c'

/-- The character set of Python `str.strip('"\'')`: double or single quote. -/
def isQuoteChar (c : Char) : Bool :=
  c = '"' || c = '\''

/-- Remove leading characters satisfying `p` (left half of Python strip). -/
def stripLeft (p : Char → Bool) : List Char → List Char
  | [] => []
  | c :: cs => if p c then stripLeft p cs else c :: cs

/-- Remove trailing characters satisfying `p` (right half of Python strip). -/
def stripRight (p : Char → Bool) (l : List Char) : List Char :=
  (stripLeft p l.reverse).reverse

/-- Python `s.strip(chars)`: remove characters of class `p` from both ends. -/
def pyStrip (p : Char → Bool) (l : List Char) : List Char :=
  stripRight p (stripLeft p l)

/-- Python `str.lower()` on one character (ASCII range, the relevant one). -/
def pyLower (c : Char) : Char := c.toLower

/-- git_commit_ai.generate_commit_message, lines 85–91: post-processing of
the raw service reply: `response.text.strip()` then `.strip('"\'').strip()`. -/
def postprocessCommitReply (raw : List Char) : List Char :=
  pyStrip pyIsSpace (pyStrip isQuoteChar (pyStrip pyIsSpace raw))

/-- git_diff_summarizer.generate_diff_summary, lines 87–90: post-processing
of the raw reply is `response.text.strip()` only. -/
def postprocessSummaryReply (raw : List Char) : List Char :=
  pyStrip pyIsSpace raw

/-- The value returned by get_user_confirmation when it returns:
`(True, message)` on 'c', `(True, edited)` on a non-empty edit,
`(False, None)` on 'a'. -/
inductive Decision where
  | accept (msg : List Char)
  | acceptEdited (msg : List Char)
  | abort
  deriving DecidableEq, Repr

/-- Outcome of running the confirmation loop against a finite input stream:
either a decision is returned, or the stream is exhausted and `input()`
raises an uncaught `EOFError`. -/
inductive ConfirmResult where
  | decided (d : Decision)
  | eofError
  deriving DecidableEq, Repr

/-- git_commit_ai.get_user_confirmation, lines 113–128, driven by an
explicit list of operator input lines.  Each outer iteration reads one
line as `choice = input(...).lower().strip()`; the 'e' branch reads one
more line as `edited_message = input("> ").strip()`.  Reading past the
end of the stream is `EOFError`. -/
def get_user_confirmation (message : List Char) : List (List Char) → ConfirmResult
  | [] => ConfirmResult.eofError
  | line :: rest =>
    let choice := pyStrip pyIsSpace (line.map pyLower)
    if choice = ['c'] then
      ConfirmResult.decided (Decision.accept message)
    else if choice = ['e'] then
      match rest with
      | [] => ConfirmResult.eofError
      | editLine :: rest2 =>
        let edited := pyStrip pyIsSpace editLine
        if edited ≠ [] then
          ConfirmResult.decided (Decision.acceptEdited edited)
        else
          get_user_confirmation message rest2
    else if choice = ['a'] then
      ConfirmResult.decided Decision.abort
    else
      get_user_confirmation message rest

/-- git_commit_ai.run_git_command / git_diff_summarizer.run_git_command,
lines 23–33 (identical in both files): `subprocess.run(..., check=True)`
raises on a non-zero exit status, the handler prints to stderr and returns
`""`; on success the stripped stdout is returned.  The result is the
returned DiffText together with whether an error was printed to stderr. -/
def run_git_command (exitStatus : Nat) (stdout : List Char) : List Char × Bool :=
  if exitStatus = 0 then (pyStrip pyIsSpace stdout, false)
  else ([], true)

/-- Result of a synthesizer call (generate_commit_message /
generate_diff_summary).  `fatalConfig` is the `sys.exit(1)` taken when
`GEMINI_API_KEY` is unset (before any network call); `fatalService` is the
`sys.exit(1)` in the exception handler around `model.generate_content`
(the network call was attempted); `ok` carries the post-processed text. -/
inductive SynthResult where
  | fatalConfig
  | fatalService
  | ok (text : List Char)
  deriving DecidableEq, Repr

/-- git_commit_ai.generate_commit_message, lines 56–94.  `apiKey` is
`os.getenv('GEMINI_API_KEY')` (`none` when absent); `if not api_key` is
also taken when the variable is set to the empty string.  `serviceReply`
is the reply text of `model.generate_content`, `none` when that call
raises. -/
def generate_commit_message (apiKey : Option (List Char))
    (serviceReply : Option (List Char)) : SynthResult :=
  match apiKey with
  | none => SynthResult.fatalConfig
  | some k =>
    if k = [] then SynthResult.fatalConfig
    else
      match serviceReply with
      | none => SynthResult.fatalService
      | some raw => SynthResult.ok (postprocessCommitReply raw)

/-- git_diff_summarizer.generate_diff_summary, lines 56–93: same shape,
but the reply is only stripped of whitespace. -/
def generate_diff_summary (apiKey : Option (List Char))
    (serviceReply : Option (List Char)) : SynthResult :=
  match apiKey with
  | none => SynthResult.fatalConfig
  | some k =>
    if k = [] then SynthResult.fatalConfig
    else
      match serviceReply with
      | none => SynthResult.fatalService
      | some raw => SynthResult.ok (postprocessSummaryReply raw)

/-- git_commit_ai.commit_changes, lines 141–150: runs
`git commit -m message` with `check=True`; on a non-zero exit the
exception is caught, an error is printed to stderr and `False` is
returned; on success `True`.  The pair is (returned value, error
printed to stderr). -/
def commit_changes (commitExit : Nat) : Bool × Bool :=
  if commitExit = 0 then (true, false) else (false, true)

/-- The oracle inputs a run of either script consumes: the diff
subprocess's exit status and stdout, the credential environment variable,
the generative service's reply (`none` = the call raised), the operator's
input lines, and the commit subprocess's exit status. -/
structure Env where
  gitDiffExit : Nat
  gitDiffStdout : List Char
  geminiApiKey : Option (List Char)
  serviceReply : Option (List Char)
  userInput : List (List Char)
  commitExit : Nat

/-- Observable trace of a git_commit_ai.main run: the process exit code,
whether the run died with an uncaught exception (traceback), whether
generate_commit_message was entered, whether the network call was
attempted, whether `git commit` was spawned and with which message
argument, and whether commit_changes printed an error to stderr. -/
structure RunTrace where
  exitCode : Nat
  crashed : Bool
  synthCalled : Bool
  networkCalled : Bool
  commitInvoked : Bool
  commitMessageArg : Option (List Char)
  commitErrorReported : Bool
  deriving DecidableEq, Repr

/-- The tail of git_commit_ai.main after a message was accepted, lines
179–181: `commit_changes(final_message)` is called, its Bool result is
ignored, and main returns normally (process exit code 0). -/
def commitStep (env : Env) (m : List Char) : RunTrace :=
  { exitCode := 0
    crashed := false
    synthCalled := true
    networkCalled := true
    commitInvoked := true
    commitMessageArg := some m
    commitErrorReported := (commit_changes env.commitExit).2 }

/-- git_commit_ai.main, lines 153–181.  `get_staged_diff` is
`run_git_command(['git','diff','--cached'])`; `if not diff: sys.exit(0)`;
then generate_commit_message, get_user_confirmation, and (unless aborted)
commit_changes.  An uncaught `EOFError` from the confirmation loop kills
the process with a traceback and exit code 1. -/
def main_commit (env : Env) : RunTrace :=
  let diff := (run_git_command env.gitDiffExit env.gitDiffStdout).1
  if diff = [] then
    { exitCode := 0, crashed := false, synthCalled := false,
      networkCalled := false, commitInvoked := false,
      commitMessageArg := none, commitErrorReported := false }
  else
    match generate_commit_message env.geminiApiKey env.serviceReply with
    | SynthResult.fatalConfig =>
      { exitCode := 1, crashed := false, synthCalled := true,
        networkCalled := false, commitInvoked := false,
        commitMessageArg := none, commitErrorReported := false }
    | SynthResult.fatalService =>
      { exitCode := 1, crashed := false, synthCalled := true,
        networkCalled := true, commitInvoked := false,
        commitMessageArg := none, commitErrorReported := false }
    | SynthResult.ok msg =>
      match get_user_confirmation msg env.userInput with
      | ConfirmResult.eofError =>
        { exitCode := 1, crashed := true, synthCalled := true,
          networkCalled := true, commitInvoked := false,
          commitMessageArg := none, commitErrorReported := false }
      | ConfirmResult.decided Decision.abort =>
        { exitCode := 0, crashed := false, synthCalled := true,
          networkCalled := true, commitInvoked := false,
          commitMessageArg := none, commitErrorReported := false }
      | ConfirmResult.decided (Decision.accept m) => commitStep env m
      | ConfirmResult.decided (Decision.acceptEdited m) => commitStep env m

/-- Observable trace of a git_diff_summarizer.main run. -/
structure SummaryTrace where
  exitCode : Nat
  synthCalled : Bool
  networkCalled : Bool
  displayedSummary : Option (List Char)
  deriving DecidableEq, Repr

/-- git_diff_summarizer.main, lines 112–137.  `get_unstaged_diff` is
`run_git_command(['git','diff'])`; `if not diff: sys.exit(0)`; then
generate_diff_summary and format_output. -/
def main_summary (env : Env) : SummaryTrace :=
  let diff := (run_git_command env.gitDiffExit env.gitDiffStdout).1
  if diff = [] then
    { exitCode := 0, synthCalled := false, networkCalled := false,
      displayedSummary := none }
  else
    match generate_diff_summary env.geminiApiKey env.serviceReply with
    | SynthResult.fatalConfig =>
      { exitCode := 1, synthCalled := true, networkCalled := false,
        displayedSummary := none }
    | SynthResult.fatalService =>
      { exitCode := 1, synthCalled := true, networkCalled := true,
        displayedSummary := none }
    | SynthResult.ok s =>
      { exitCode := 0, synthCalled := true, networkCalled := true,
        displayedSummary := some s }

/-- Independent formulation of two-sided trimming, following the spec's
wording for the amended post-processing description: drop ALL leading
characters of the class, then all trailing ones. -/
def trimEndsSpec (p : Char → Bool) (l : List Char) : List Char :=
  ((l.dropWhile p).reverse.dropWhile p).reverse

/-- Concrete oracle environments used by the witness theorems. -/
def envNoChanges : Env :=
  ⟨0, [], some "k".toList, some "r".toList, [], 0⟩

def envNoKey : Env :=
  ⟨0, "d".toList, none, some "r".toList, [], 0⟩

def envCommitFail : Env :=
  ⟨0, "d".toList, some "k".toList, some "msg".toList, ["c".toList], 1⟩

theorem stripLeft_cons_neg (p : Char → Bool) (a : Char) (l : List Char)
    (h : p a = false) : stripLeft p (a :: l) = a :: l := by
  simp [stripLeft, h]

theorem stripLeft_head_neg (p : Char → Bool) :
    ∀ (l : List Char) (a : Char) (l' : List Char),
      stripLeft p l = a :: l' → p a = false := by
  intro l
  induction l with
  | nil => intro a l' h; simp [stripLeft] at h
  | cons c cs ih =>
    intro a l' h
    by_cases hc : p c
    · rw [stripLeft, if_pos hc] at h
      exact ih a l' h
    · rw [stripLeft, if_neg hc] at h
      obtain ⟨rfl, -⟩ := List.cons.injEq .. ▸ h
      exact eq_false_of_ne_true hc

theorem stripLeft_idem (p : Char → Bool) (l : List Char) :
    stripLeft p (stripLeft p l) = stripLeft p l := by
  cases h : stripLeft p l with
  | nil => simp [stripLeft]
  | cons a l' => exact stripLeft_cons_neg p a l' (stripLeft_head_neg p l a l' h)

theorem stripLeft_eq_append (p : Char → Bool) :
    ∀ l : List Char, ∃ t, l = t ++ stripLeft p l := by
  intro l
  induction l with
  | nil => exact ⟨[], rfl⟩
  | cons c cs ih =>
    by_cases hc : p c
    · obtain ⟨t, ht⟩ := ih
      refine ⟨c :: t, ?_⟩
      rw [stripLeft, if_pos hc, List.cons_append, ← ht]
    · exact ⟨[], by rw [stripLeft, if_neg hc, List.nil_append]⟩

theorem stripRight_eq_append (p : Char → Bool) (l : List Char) :
    ∃ u, l = stripRight p l ++ u := by
  obtain ⟨t, ht⟩ := stripLeft_eq_append p l.reverse
  refine ⟨t.reverse, ?_⟩
  calc l = l.reverse.reverse := (List.reverse_reverse l).symm
    _ = (t ++ stripLeft p l.reverse).reverse := by rw [← ht]
    _ = stripRight p l ++ t.reverse := by
        rw [List.reverse_append]; rfl

theorem stripRight_idem (p : Char → Bool) (l : List Char) :
    stripRight p (stripRight p l) = stripRight p l := by
  unfold stripRight
  rw [List.reverse_reverse, stripLeft_idem]

theorem stripLeft_stripRight_of_fixed (p : Char → Bool) (l : List Char)
    (h : stripLeft p l = l) :
    stripLeft p (stripRight p l) = stripRight p l := by
  obtain ⟨u, hu⟩ := stripRight_eq_append p l
  cases hr : stripRight p l with
  | nil => rfl
  | cons b s =>
    have hb : p b = false := by
      apply stripLeft_head_neg p l b (s ++ u)
      rw [h, hu, hr]
      rfl
    exact stripLeft_cons_neg p b s hb

theorem pyStrip_idem (p : Char → Bool) (l : List Char) :
    pyStrip p (pyStrip p l) = pyStrip p l := by
  unfold pyStrip
  rw [stripLeft_stripRight_of_fixed p _ (stripLeft_idem p l), stripRight_idem]

theorem stripLeft_eq_dropWhile (p : Char → Bool) :
    ∀ l : List Char, stripLeft p l = l.dropWhile p := by
  intro l
  induction l with
  | nil => rfl
  | cons c cs ih =>
    by_cases hc : p c
    · rw [stripLeft, if_pos hc, ih, List.dropWhile_cons_of_pos hc]
    · rw [stripLeft, if_neg hc, List.dropWhile_cons_of_neg hc]

theorem pyStrip_eq_trimEndsSpec (p : Char → Bool) (l : List Char) :
    pyStrip p l = trimEndsSpec p l := by
  unfold pyStrip stripRight trimEndsSpec
  rw [stripLeft_eq_dropWhile, stripLeft_eq_dropWhile]

theorem pyStrip_infix (p : Char → Bool) (l : List Char) :
    ∃ s t, l = s ++ pyStrip p l ++ t := by
  obtain ⟨s, hs⟩ := stripLeft_eq_append p l
  obtain ⟨t, ht⟩ := stripRight_eq_append p (stripLeft p l)
  refine ⟨s, t, ?_⟩
  conv_lhs => rw [hs, ht]
  simp [pyStrip, List.append_assoc]

theorem stripLeft_all_neg (p : Char → Bool) (l : List Char)
    (h : ∀ x ∈ l, p x = false) : stripLeft p l = l := by
  cases l with
  | nil => rfl
  | cons a l' => exact stripLeft_cons_neg p a l' (h a (List.mem_cons_self a l'))

theorem pyStrip_quotes_wrap (q : Char) (hq : isQuoteChar q = true)
    (c : List Char) (h : ∀ x ∈ c, isQuoteChar x = false) :
    pyStrip isQuoteChar (q :: c ++ [q]) = c := by
  unfold pyStrip stripRight
  rw [List.cons_append, stripLeft, if_pos hq]
  cases c with
  | nil => simp [stripLeft, hq]
  | cons a c' =>
    have ha : isQuoteChar a = false := h a (List.mem_cons_self a c')
    rw [List.cons_append, stripLeft_cons_neg _ _ _ ha]
    have h2 : (a :: (c' ++ [q])).reverse = q :: (c'.reverse ++ [a]) := by simp
    rw [h2, stripLeft, if_pos hq]
    have hmem : ∀ x ∈ c'.reverse ++ [a], isQuoteChar x = false := by
      intro x hx
      rcases List.mem_append.mp hx with hx | hx
      · exact h x (List.mem_cons_of_mem a (List.mem_reverse.mp hx))
      · rw [List.mem_singleton.mp hx]
        exact ha
    rw [stripLeft_all_neg isQuoteChar (c'.reverse ++ [a]) hmem]
    simp

theorem pyStrip_no_strip_edges (p : Char → Bool) (a b : Char) (l : List Char)
    (ha : p a = false) (hb : p b = false) :
    pyStrip p (a :: l ++ [b]) = a :: l ++ [b] := by
  unfold pyStrip stripRight
  rw [List.cons_append, stripLeft_cons_neg _ _ _ ha]
  have h2 : (a :: (l ++ [b])).reverse = b :: (l.reverse ++ [a]) := by simp
  rw [h2, stripLeft_cons_neg _ _ _ hb, ← h2, List.reverse_reverse]

theorem quote_not_space (q : Char) (hq : isQuoteChar q = true) :
    pyIsSpace q = false := by
  have : q = '"' ∨ q = '\'' := by
    simpa [isQuoteChar] using hq
  rcases this with h | h <;> subst h <;> decide

theorem get_user_confirmation_cons (msg line : List Char)
    (rest : List (List Char)) :
    get_user_confirmation msg (line :: rest) =
      (if pyStrip pyIsSpace (line.map pyLower) = ['c'] then
        ConfirmResult.decided (Decision.accept msg)
      else if pyStrip pyIsSpace (line.map pyLower) = ['e'] then
        match rest with
        | [] => ConfirmResult.eofError
        | editLine :: rest2 =>
          if pyStrip pyIsSpace editLine ≠ [] then
            ConfirmResult.decided (Decision.acceptEdited (pyStrip pyIsSpace editLine))
          else get_user_confirmation msg rest2
      else if pyStrip pyIsSpace (line.map pyLower) = ['a'] then
        ConfirmResult.decided Decision.abort
      else get_user_confirmation msg rest) := by
  rw [get_user_confirmation.eq_def]

theorem confirm_step_accept (msg line : List Char) (rest : List (List Char))
    (hc : pyStrip pyIsSpace (line.map pyLower) = ['c']) :
    get_user_confirmation msg (line :: rest)
      = ConfirmResult.decided (Decision.accept msg) := by
  rw [get_user_confirmation_cons, if_pos hc]

theorem confirm_step_abort (msg line : List Char) (rest : List (List Char))
    (ha : pyStrip pyIsSpace (line.map pyLower) = ['a']) :
    get_user_confirmation msg (line :: rest)
      = ConfirmResult.decided Decision.abort := by
  have hc : ¬(pyStrip pyIsSpace (line.map pyLower) = ['c']) := by
    rw [ha]; decide
  have he : ¬(pyStrip pyIsSpace (line.map pyLower) = ['e']) := by
    rw [ha]; decide
  rw [get_user_confirmation_cons, if_neg hc, if_neg he, if_pos ha]

theorem confirm_step_edit_ok (msg line editLine : List Char)
    (rest : List (List Char))
    (he : pyStrip pyIsSpace (line.map pyLower) = ['e'])
    (hne : pyStrip pyIsSpace editLine ≠ []) :
    get_user_confirmation msg (line :: editLine :: rest)
      = ConfirmResult.decided (Decision.acceptEdited (pyStrip pyIsSpace editLine)) := by
  have hc : ¬(pyStrip pyIsSpace (line.map pyLower) = ['c']) := by
    rw [he]; decide
  rw [get_user_confirmation_cons, if_neg hc, if_pos he]
  simp only [hne, ne_eq, not_false_eq_true, if_pos]

theorem confirm_step_edit_empty (msg line editLine : List Char)
    (rest : List (List Char))
    (he : pyStrip pyIsSpace (line.map pyLower) = ['e'])
    (hemp : pyStrip pyIsSpace editLine = []) :
    get_user_confirmation msg (line :: editLine :: rest)
      = get_user_confirmation msg rest := by
  have hc : ¬(pyStrip pyIsSpace (line.map pyLower) = ['c']) := by
    rw [he]; decide
  rw [get_user_confirmation_cons, if_neg hc, if_pos he]
  simp only [hemp, ne_eq, not_true_eq_false, if_neg, not_false_eq_true]

theorem confirm_step_invalid (msg line : List Char) (rest : List (List Char))
    (hc : ¬(pyStrip pyIsSpace (line.map pyLower) = ['c']))
    (he : ¬(pyStrip pyIsSpace (line.map pyLower) = ['e']))
    (ha : ¬(pyStrip pyIsSpace (line.map pyLower) = ['a'])) :
    get_user_confirmation msg (line :: rest)
      = get_user_confirmation msg rest := by
  rw [get_user_confirmation_cons, if_neg hc, if_neg he, if_neg ha]

/-- Inversion for the accepted-edit outcome: whatever the input stream,
a returned edited message is the stripped operator line: non-empty and
whitespace-free at both ends.  (Induction on the length of the stream,
since one loop iteration consumes one or two lines.) -/
theorem confirm_acceptEdited_inv_aux (msg : List Char) :
    ∀ (n : Nat) (inputs : List (List Char)), inputs.length ≤ n →
      ∀ m, get_user_confirmation msg inputs
          = ConfirmResult.decided (Decision.acceptEdited m) →
        m ≠ [] ∧ pyStrip pyIsSpace m = m := by
  intro n
  induction n with
  | zero =>
    intro inputs hlen m h
    rw [List.length_eq_zero.mp (Nat.le_zero.mp hlen)] at h
    simp [get_user_confirmation] at h
  | succ n ih =>
    intro inputs hlen m h
    cases inputs with
    | nil => simp [get_user_confirmation] at h
    | cons line rest =>
      rw [get_user_confirmation_cons] at h
      by_cases hc : pyStrip pyIsSpace (line.map pyLower) = ['c']
      · rw [if_pos hc] at h
        exact absurd h (by simp)
      · rw [if_neg hc] at h
        by_cases he : pyStrip pyIsSpace (line.map pyLower) = ['e']
        · rw [if_pos he] at h
          cases rest with
          | nil => exact absurd h (by simp)
          | cons editLine rest2 =>
            by_cases hne : pyStrip pyIsSpace editLine ≠ []
            · simp only [hne, ne_eq, not_false_eq_true, if_pos] at h
              have hm : m = pyStrip pyIsSpace editLine := by
                have := (ConfirmResult.decided.injEq ..).mp h
                exact ((Decision.acceptEdited.injEq ..).mp this).symm
              refine ⟨hm ▸ hne, ?_⟩
              rw [hm]
              exact pyStrip_idem pyIsSpace editLine
            · push_neg at hne
              simp only [hne, ne_eq, not_true_eq_false, if_neg,
                not_false_eq_true] at h
              refine ih rest2 ?_ m h
              have : rest2.length + 2 ≤ n + 1 := by
                simpa [List.length_cons] using hlen
              omega
        · rw [if_neg he] at h
          by_cases ha : pyStrip pyIsSpace (line.map pyLower) = ['a']
          · rw [if_pos ha] at h
            exact absurd h (by simp)
          · rw [if_neg ha] at h
            refine ih rest ?_ m h
            have : rest.length + 1 ≤ n + 1 := by
              simpa [List.length_cons] using hlen
            omega

theorem confirm_acceptEdited_inv (msg : List Char)
    (inputs : List (List Char)) (m : List Char)
    (h : get_user_confirmation msg inputs
      = ConfirmResult.decided (Decision.acceptEdited m)) :
    m ≠ [] ∧ pyStrip pyIsSpace m = m :=
  confirm_acceptEdited_inv_aux msg inputs.length inputs le_rfl m h

-- quick sanity checks of the embedding on concrete inputs
example : pyStrip pyIsSpace "  hi  ".toList = "hi".toList := by decide
example : pyStrip isQuoteChar "\"\"hi\"\"".toList = "hi".toList := by decide
example : postprocessCommitReply "\"Add input validation to parser\"".toList
    = "Add input validation to parser".toList := by decide
example : postprocessSummaryReply "\"hi\"".toList = "\"hi\"".toList := by decide
example : get_user_confirmation "m".toList ["x".toList, "c".toList]
    = ConfirmResult.decided (Decision.accept "m".toList) := by decide
example : get_user_confirmation "m".toList
    ["e".toList, "".toList, "e".toList, "new message".toList]
    = ConfirmResult.decided (Decision.acceptEdited "new message".toList) := by decide
example : get_user_confirmation "m".toList ["a".toList]
    = ConfirmResult.decided Decision.abort := by decide
example : get_user_confirmation "m".toList [] = ConfirmResult.eofError := by rfl
example : get_user_confirmation "m".toList [" C ".toList]
    = ConfirmResult.decided (Decision.accept "m".toList) := by decide

/-- C1: get_user_confirmation driven by an exhausted operator input stream
(end-of-input before any terminal token, in particular with no prior input
at all) does NOT yield the Abort decision: `input()` raises an uncaught
`EOFError` and the process dies with a traceback.  The claimed
end-of-input-equals-Abort behavior is therefore violated by the code. -/
theorem confirm_eof_crashes (message : List Char) :
    get_user_confirmation message [] = ConfirmResult.eofError ∧
    ConfirmResult.eofError ≠ ConfirmResult.decided Decision.abort :=
  ⟨by simp [get_user_confirmation], by decide⟩

/-- C2 counterexample: the summary-mode reply keeps its wrapping quotes
(summary mode performs no quote stripping at all), and commit-mode
stripping removes more than one layer of quotes and also removes
non-matching edge quotes. -/
theorem postprocess_claim_refuted :
    postprocessSummaryReply "\"hi\"".toList = "\"hi\"".toList ∧
    postprocessSummaryReply "\"hi\"".toList ≠ "hi".toList ∧
    postprocessCommitReply "\"\"hi\"\"".toList = "hi".toList ∧
    postprocessCommitReply ['"', 'h', 'i', '\''] = "hi".toList := by
  decide

/-- C2 (amended): commit-mode post-processing trims whitespace, then
strips ALL leading and trailing quote characters (single or double, not
necessarily a matching pair, possibly several layers), then trims
whitespace again; summary-mode post-processing only trims leading and
trailing whitespace.  Both only remove characters at the ends: the
summary result is a contiguous segment of the raw reply. -/
theorem postprocess_modes_characterized (raw : List Char) :
    postprocessCommitReply raw
      = trimEndsSpec pyIsSpace
          (trimEndsSpec isQuoteChar (trimEndsSpec pyIsSpace raw)) ∧
    postprocessSummaryReply raw = trimEndsSpec pyIsSpace raw ∧
    (∃ s t, raw = s ++ postprocessSummaryReply raw ++ t) := by
  refine ⟨?_, ?_, ?_⟩
  · unfold postprocessCommitReply
    rw [pyStrip_eq_trimEndsSpec, pyStrip_eq_trimEndsSpec,
      pyStrip_eq_trimEndsSpec]
  · exact pyStrip_eq_trimEndsSpec pyIsSpace raw
  · exact pyStrip_infix pyIsSpace raw

/-- C3 counterexample: the empty candidate IS accepted unchanged when the
operator enters 'c'; the loop never checks the candidate for
non-emptiness, contradicting the claim that an empty GeneratedText cannot
be accepted. -/
theorem empty_candidate_accepted :
    get_user_confirmation [] ["c".toList]
      = ConfirmResult.decided (Decision.accept []) := by
  decide

/-- C3 (amended): every operator-edited replacement the loop returns is
non-empty — an empty edited line re-prompts instead of falling back to
the candidate — but the unedited candidate is accepted via 'c' with no
non-emptiness check, so an accepted message is guaranteed non-empty only
on the edit path. -/
theorem accepted_edit_nonempty (msg : List Char) :
    (∀ inputs m, get_user_confirmation msg inputs
        = ConfirmResult.decided (Decision.acceptEdited m) → m ≠ []) ∧
    (∀ rest, get_user_confirmation msg ("e".toList :: "".toList :: rest)
        = get_user_confirmation msg rest) := by
  constructor
  · intro inputs m h
    exact (confirm_acceptEdited_inv msg inputs m h).1
  · intro rest
    exact confirm_step_edit_empty msg "e".toList "".toList rest
      (by decide) (by decide)

theorem accepted_edit_nonempty_witness :
    ("ok".toList : List Char) ≠ [] :=
  (accepted_edit_nonempty "m".toList).1 ["e".toList, "ok".toList]
    "ok".toList (by decide)

/-- C4: the three specified driving sequences: ["x", "c"] yields
Accept(candidate) (invalid token re-prompted and ignored);
["e", "", "e", "new message"] yields AcceptEdited("new message") (the
empty edit attempt re-prompts); ["a"] yields Abort. -/
theorem confirm_canonical_sequences (msg : List Char) :
    get_user_confirmation msg ["x".toList, "c".toList]
      = ConfirmResult.decided (Decision.accept msg) ∧
    get_user_confirmation msg
        ["e".toList, "".toList, "e".toList, "new message".toList]
      = ConfirmResult.decided (Decision.acceptEdited "new message".toList) ∧
    get_user_confirmation msg ["a".toList]
      = ConfirmResult.decided Decision.abort := by
  refine ⟨?_, ?_, ?_⟩
  · rw [confirm_step_invalid msg "x".toList _ (by decide) (by decide)
      (by decide)]
    exact confirm_step_accept msg "c".toList [] (by decide)
  · rw [confirm_step_edit_empty msg "e".toList "".toList _ (by decide)
      (by decide)]
    rw [confirm_step_edit_ok msg "e".toList "new message".toList []
      (by decide) (by decide)]
    decide
  · exact confirm_step_abort msg "a".toList [] (by decide)

/-- C5: when the Change Retriever returns an empty DiffText, both modes
exit with code 0 before the Synthesizer is called, and the commit
subprocess is never invoked. -/
theorem no_changes_short_circuit (env : Env)
    (h : (run_git_command env.gitDiffExit env.gitDiffStdout).1 = []) :
    (main_commit env).exitCode = 0 ∧
    (main_commit env).synthCalled = false ∧
    (main_commit env).commitInvoked = false ∧
    (main_summary env).exitCode = 0 ∧
    (main_summary env).synthCalled = false := by
  simp [main_commit, main_summary, h]

theorem no_changes_short_circuit_witness :
    (main_commit envNoChanges).exitCode = 0 ∧
    (main_commit envNoChanges).synthCalled = false ∧
    (main_commit envNoChanges).commitInvoked = false ∧
    (main_summary envNoChanges).exitCode = 0 ∧
    (main_summary envNoChanges).synthCalled = false :=
  no_changes_short_circuit envNoChanges (by decide)

/-- C6: with the credential environment variable absent and a non-empty
diff, both synthesizers take the fatal-configuration exit: the process
ends with exit code 1 and the network call is never attempted. -/
theorem missing_credential_no_network (env : Env)
    (hk : env.geminiApiKey = none)
    (hd : (run_git_command env.gitDiffExit env.gitDiffStdout).1 ≠ []) :
    generate_commit_message env.geminiApiKey env.serviceReply
      = SynthResult.fatalConfig ∧
    generate_diff_summary env.geminiApiKey env.serviceReply
      = SynthResult.fatalConfig ∧
    (main_commit env).exitCode = 1 ∧
    (main_commit env).networkCalled = false ∧
    (main_summary env).exitCode = 1 ∧
    (main_summary env).networkCalled = false := by
  simp [main_commit, main_summary, generate_commit_message,
    generate_diff_summary, hk, hd]

theorem missing_credential_no_network_witness :
    generate_commit_message envNoKey.geminiApiKey envNoKey.serviceReply
      = SynthResult.fatalConfig ∧
    generate_diff_summary envNoKey.geminiApiKey envNoKey.serviceReply
      = SynthResult.fatalConfig ∧
    (main_commit envNoKey).exitCode = 1 ∧
    (main_commit envNoKey).networkCalled = false ∧
    (main_summary envNoKey).exitCode = 1 ∧
    (main_summary envNoKey).networkCalled = false :=
  missing_credential_no_network envNoKey rfl (by decide)

/-- C7: run_git_command on a non-zero subprocess exit reports to stderr
and returns the empty DiffText (no exception escapes); on success it
returns the stripped stdout with no error report. -/
theorem run_git_command_soft_fail (exitStatus : Nat) (stdout : List Char) :
    (exitStatus ≠ 0 → run_git_command exitStatus stdout = ([], true)) ∧
    (exitStatus = 0 → run_git_command exitStatus stdout
        = (pyStrip pyIsSpace stdout, false)) := by
  constructor
  · intro h
    simp [run_git_command, h]
  · intro h
    simp [run_git_command, h]

theorem run_git_command_soft_fail_witness :
    run_git_command 1 "out".toList = ([], true) ∧
    run_git_command 0 " out ".toList = ("out".toList, false) := by
  refine ⟨(run_git_command_soft_fail 1 "out".toList).1 (by decide), ?_⟩
  rw [(run_git_command_soft_fail 0 " out ".toList).2 rfl]
  decide

/-- C8: every commit-mode run that reaches the commit subprocess ends
with process exit code 0 and no crash, whatever the commit exit status;
a non-zero commit exit is reported to stderr. -/
theorem commit_failure_soft (env : Env)
    (h : (main_commit env).commitInvoked = true) :
    (main_commit env).exitCode = 0 ∧
    (main_commit env).crashed = false ∧
    (env.commitExit ≠ 0 → (main_commit env).commitErrorReported = true) := by
  by_cases hd : (run_git_command env.gitDiffExit env.gitDiffStdout).1 = []
  · simp [main_commit, hd] at h
  · cases hg : generate_commit_message env.geminiApiKey env.serviceReply with
    | fatalConfig => simp [main_commit, hd, hg] at h
    | fatalService => simp [main_commit, hd, hg] at h
    | ok msg =>
      cases hc : get_user_confirmation msg env.userInput with
      | eofError => simp [main_commit, hd, hg, hc] at h
      | decided d =>
        cases d with
        | abort => simp [main_commit, hd, hg, hc] at h
        | accept m =>
          simp only [main_commit, hd, hg, hc, if_neg hd, commitStep,
            commit_changes]
          refine ⟨rfl, rfl, ?_⟩
          intro hne
          simp [hne]
        | acceptEdited m =>
          simp only [main_commit, hd, hg, hc, if_neg hd, commitStep,
            commit_changes]
          refine ⟨rfl, rfl, ?_⟩
          intro hne
          simp [hne]

theorem commit_failure_soft_witness :
    (main_commit envCommitFail).exitCode = 0 ∧
    (main_commit envCommitFail).crashed = false ∧
    (envCommitFail.commitExit ≠ 0 →
      (main_commit envCommitFail).commitErrorReported = true) :=
  commit_failure_soft envCommitFail (by decide)

/-- C9 counterexample: the quote-free candidate " x" (leading blank) is
not recovered — wrapping it in quotes and post-processing strips the
blank; and a post-processed reply can still carry an enclosing pair of
quote characters (raw `" 'x' "` post-processes to `'x'`). -/
theorem roundtrip_refuted :
    (∀ ch ∈ [' ', 'x'], isQuoteChar ch = false) ∧
    postprocessCommitReply ('"' :: ([' ', 'x'] ++ ['"'])) ≠ [' ', 'x'] ∧
    postprocessCommitReply ['"', ' ', '\'', 'x', '\'', ' ', '"']
      = ['\'', 'x', '\''] := by
  decide

/-- C9 (amended): for a candidate with no quote characters and no
leading/trailing whitespace, wrapping it in a pair of (either kind of)
quote characters and post-processing recovers the candidate exactly; and
every post-processed commit reply has no leading/trailing whitespace. -/
theorem roundtrip_amended (c : List Char)
    (hq : ∀ x ∈ c, isQuoteChar x = false)
    (hw : pyStrip pyIsSpace c = c) :
    (∀ q, isQuoteChar q = true →
      postprocessCommitReply (q :: c ++ [q]) = c) ∧
    (∀ raw, pyStrip pyIsSpace (postprocessCommitReply raw)
        = postprocessCommitReply raw) := by
  constructor
  · intro q hqt
    unfold postprocessCommitReply
    have hqs : pyIsSpace q = false := quote_not_space q hqt
    rw [pyStrip_no_strip_edges pyIsSpace q q c hqs hqs,
      pyStrip_quotes_wrap q hqt c hq, hw]
  · intro raw
    unfold postprocessCommitReply
    exact pyStrip_idem pyIsSpace _

theorem roundtrip_amended_witness :
    postprocessCommitReply ('"' :: "ok".toList ++ ['"']) = "ok".toList :=
  (roundtrip_amended "ok".toList (by decide) (by decide)).1 '"' (by decide)

/-- C10: the choice token is lowercased and whitespace-stripped before
interpretation (so " C " accepts); a whitespace-only edited line counts
as empty and re-prompts; and any returned edited message is
whitespace-stripped at both ends. -/
theorem confirm_strips_operator_input (msg : List Char) :
    (∀ rest, get_user_confirmation msg (" C ".toList :: rest)
        = ConfirmResult.decided (Decision.accept msg)) ∧
    (∀ rest, get_user_confirmation msg ("e".toList :: "   ".toList :: rest)
        = get_user_confirmation msg rest) ∧
    (∀ inputs m, get_user_confirmation msg inputs
        = ConfirmResult.decided (Decision.acceptEdited m) →
      pyStrip pyIsSpace m = m) := by
  refine ⟨?_, ?_, ?_⟩
  · intro rest
    exact confirm_step_accept msg " C ".toList rest (by decide)
  · intro rest
    exact confirm_step_edit_empty msg "e".toList "   ".toList rest
      (by decide) (by decide)
  · intro inputs m h
    exact (confirm_acceptEdited_inv msg inputs m h).2

theorem confirm_strips_operator_input_witness :
    get_user_confirmation "m".toList [" C ".toList]
        = ConfirmResult.decided (Decision.accept "m".toList) ∧
    pyStrip pyIsSpace "ok".toList = "ok".toList :=
  ⟨(confirm_strips_operator_input "m".toList).1 [],
   (confirm_strips_operator_input "m".toList).2.2
     ["e".toList, "ok".toList] "ok".toList (by decide)⟩
